import Mathlib

/-!
Verification development for the `squat` quaternion-time-series aggregation
code (`src/squatQTSSampleClass.cpp`).

The repository source provides the two series drivers `mean_qts_impl` and
`median_qts_impl`, which slice a list of quaternion time series (QTS) into
per-grid-point quaternion sample sets, call the manifold aggregators
`gmean` / `gmedian` on each set, and write the results into a cloned copy of
the first input series.  The aggregators themselves live in
`squatSO3Utils.cpp`, which is not part of the provided sources; they are
modelled here from the specification (Karcher-mean tangent-space iteration
and Weiszfeld iterative reweighting, with quaternion sign reconciliation,
a convergence tolerance and an iteration cap).

Scalars are modelled as real numbers (`ℝ`), the exact-arithmetic idealization
of the C++ `double`s; the development is therefore a `noncomputable section`,
with all concrete evaluations carried out by `simp`/`norm_num` proofs.
-/

noncomputable section

/-- A quaternion value `(w, x, y, z)`, mirroring `Eigen::Vector4d` holding the
four components of a rotation quaternion in the C++ source. -/
@[ext]
structure Quat4 where
  w : ℝ
  x : ℝ
  y : ℝ
  z : ℝ

namespace Quat4

instance : Zero Quat4 := ⟨⟨0, 0, 0, 0⟩⟩

instance : Add Quat4 := ⟨fun p q => ⟨p.w + q.w, p.x + q.x, p.y + q.y, p.z + q.z⟩⟩

instance : Neg Quat4 := ⟨fun q => ⟨-q.w, -q.x, -q.y, -q.z⟩⟩

instance : Sub Quat4 := ⟨fun p q => ⟨p.w - q.w, p.x - q.x, p.y - q.y, p.z - q.z⟩⟩

instance : SMul ℝ Quat4 := ⟨fun a q => ⟨a * q.w, a * q.x, a * q.y, a * q.z⟩⟩

@[simp] theorem zero_w : (0 : Quat4).w = 0 := rfl
@[simp] theorem zero_x : (0 : Quat4).x = 0 := rfl
@[simp] theorem zero_y : (0 : Quat4).y = 0 := rfl
@[simp] theorem zero_z : (0 : Quat4).z = 0 := rfl

@[simp] theorem add_w (p q : Quat4) : (p + q).w = p.w + q.w := rfl
@[simp] theorem add_x (p q : Quat4) : (p + q).x = p.x + q.x := rfl
@[simp] theorem add_y (p q : Quat4) : (p + q).y = p.y + q.y := rfl
@[simp] theorem add_z (p q : Quat4) : (p + q).z = p.z + q.z := rfl

@[simp] theorem neg_w (q : Quat4) : (-q).w = -q.w := rfl
@[simp] theorem neg_x (q : Quat4) : (-q).x = -q.x := rfl
@[simp] theorem neg_y (q : Quat4) : (-q).y = -q.y := rfl
@[simp] theorem neg_z (q : Quat4) : (-q).z = -q.z := rfl

@[simp] theorem sub_w (p q : Quat4) : (p - q).w = p.w - q.w := rfl
@[simp] theorem sub_x (p q : Quat4) : (p - q).x = p.x - q.x := rfl
@[simp] theorem sub_y (p q : Quat4) : (p - q).y = p.y - q.y := rfl
@[simp] theorem sub_z (p q : Quat4) : (p - q).z = p.z - q.z := rfl

@[simp] theorem smul_w (a : ℝ) (q : Quat4) : (a • q).w = a * q.w := rfl
@[simp] theorem smul_x (a : ℝ) (q : Quat4) : (a • q).x = a * q.x := rfl
@[simp] theorem smul_y (a : ℝ) (q : Quat4) : (a • q).y = a * q.y := rfl
@[simp] theorem smul_z (a : ℝ) (q : Quat4) : (a • q).z = a * q.z := rfl

instance : AddCommGroup Quat4 where
  add_assoc p q r := by ext <;> simp <;> ring
  zero_add q := by ext <;> simp
  add_zero q := by ext <;> simp
  add_comm p q := by ext <;> simp <;> ring
  neg_add_cancel q := by ext <;> simp
  sub_eq_add_neg p q := by ext <;> simp <;> ring
  nsmul n q := (n : ℝ) • q
  nsmul_zero q := by ext <;> simp
  nsmul_succ n q := by ext <;> simp <;> ring
  zsmul n q := (n : ℝ) • q
  zsmul_zero' q := by ext <;> simp
  zsmul_succ' n q := by ext <;> push_cast <;> simp <;> ring
  zsmul_neg' n q := by ext <;> push_cast <;> simp <;> ring

end Quat4

/-- Euclidean inner product of two quaternion 4-vectors, the inner-product
sign test of the sign-reconciliation step. -/
def dotQ (p q : Quat4) : ℝ := p.w * q.w + p.x * q.x + p.y * q.y + p.z * q.z

/-- Euclidean norm of a quaternion 4-vector. -/
def normQ (q : Quat4) : ℝ := Real.sqrt (dotQ q q)

/-- Modelled from the spec: renormalization of an internally computed linear
combination before treating it as a rotation ("must renormalize any internally
computed linear combination").  The zero vector is left unchanged. -/
def normalizeQ (q : Quat4) : Quat4 :=
  if normQ q = 0 then q else (normQ q)⁻¹ • q

/-- Modelled from the spec: deterministic canonical sign representative of a
rotation quaternion — the spec's "purely numeric branch (inner-product sign
test)" reconciling each sample's sign against a fixed reference, with a
lexicographic tie-break so that `canonQ (-q) = canonQ q` holds for every `q`. -/
def canonQ (q : Quat4) : Quat4 :=
  if 0 < q.w then q
  else if q.w < 0 then -q
  else if 0 < q.x then q
  else if q.x < 0 then -q
  else if 0 < q.y then q
  else if q.y < 0 then -q
  else if 0 < q.z then q
  else if q.z < 0 then -q
  else q

/-- Modelled from the spec: per-iteration sign reconciliation of a sample
against the current estimate — "flip sign if its inner product with the
current estimate is negative". -/
def reconcile (est q : Quat4) : Quat4 := if dotQ est q < 0 then -q else q

/-- Modelled from the spec: logarithmic map of a unit quaternion `q` into the
tangent space at the current estimate `est` (project onto the tangent space,
rescale by the angle); used for the tangent-space averaging of both
aggregation algorithms. -/
def logMapQ (est q : Quat4) : Quat4 :=
  if normQ (q - dotQ est q • est) = 0 then 0
  else (Real.arccos (max (-1) (min 1 (dotQ est q))) / normQ (q - dotQ est q • est)) •
    (q - dotQ est q • est)

/-- Modelled from the spec: exponential map pushing a tangent vector `v` at
`est` back onto the unit sphere, followed by renormalization. -/
def expMapQ (est v : Quat4) : Quat4 :=
  if normQ v = 0 then est
  else normalizeQ (Real.cos (normQ v) • est + (Real.sin (normQ v) / normQ v) • v)

/-- Modelled from the spec: the small fixed convergence tolerance on the
magnitude of the correction step (value unspecified by the spec; a
representative small constant is used). -/
def meanTol : ℝ := 1 / 1000000

/-- Modelled from the spec: the bounded iteration cap guaranteeing termination
on pathological or antipodal-degenerate inputs (value unspecified by the spec;
a representative bound is used). -/
def maxIterations : ℕ := 100

/-- Modelled from the spec: SO(3) geodesic (angular) distance between two unit
quaternions, clamped for numerical safety. -/
def geodist (p q : Quat4) : ℝ := Real.arccos (min 1 |dotQ p q|)

/-- Modelled from the spec: the small-distance floor substituted for a
sample's distance in the Weiszfeld weights to avoid the classical Weiszfeld
division-by-zero degeneracy. -/
def distFloor : ℝ := 1 / 1000000000

/-- Modelled from the spec: average, over the (sign-reconciled) sample set, of
the tangent vectors at the current estimate — one Karcher-mean correction
step direction. -/
def avgTangent (est : Quat4) (ss : List Quat4) : Quat4 :=
  ((ss.length : ℝ))⁻¹ • (ss.map fun q => logMapQ est (reconcile est q)).sum

/-- Modelled from the spec: the Karcher-mean iteration — repeat the
tangent-space correction step until its magnitude falls below the tolerance
or the fuel (iteration cap) is exhausted.  Returns the final estimate
together with the number of correction steps taken. -/
def meanLoop (ss : List Quat4) : ℕ → Quat4 → Quat4 × ℕ
  | 0, est => (est, 0)
  | fuel + 1, est =>
    if normQ (avgTangent est ss) < meanTol then (est, 0)
    else
      ((meanLoop ss fuel (expMapQ est (avgTangent est ss))).1,
        (meanLoop ss fuel (expMapQ est (avgTangent est ss))).2 + 1)

/-- Modelled from the spec: chordal/linear averaging of the sign-canonical
samples, renormalized, as the initial estimate of the mean iteration. -/
def chordalInit (cs : List Quat4) : Quat4 :=
  normalizeQ (((cs.length : ℝ))⁻¹ • cs.sum)

/-- Modelled from the spec: geometric mean on the sign-canonical sample set —
the iterative refinement applied after the pre-processing sign
normalization. -/
def gmeanAux (cs : List Quat4) : Quat4 :=
  (meanLoop cs maxIterations (chordalInit cs)).1

/-- Modelled from the spec: `gmean`, the Fréchet/Karcher geometric mean of a
quaternion sample set (missing `squatSO3Utils.cpp`): sign reconciliation as a
pre-processing normalization applied fresh on every call, chordal initial
estimate, then the capped tangent-space iteration. -/
def gmean (ss : List Quat4) : Quat4 := gmeanAux (ss.map canonQ)

/-- Modelled from the spec: Weiszfeld weight of one sample — inversely
proportional to its geodesic distance to the estimate, with the
small-distance floor. -/
def wWeight (est q : Quat4) : ℝ := (max (geodist est q) distFloor)⁻¹

/-- Modelled from the spec: weighted tangent-space average of the Weiszfeld
iteration (weights inversely proportional to geodesic distance). -/
def wAvgTangent (est : Quat4) (ss : List Quat4) : Quat4 :=
  ((ss.map fun q => wWeight est q).sum)⁻¹ •
    (ss.map fun q => wWeight est q • logMapQ est (reconcile est q)).sum

/-- Modelled from the spec: the Weiszfeld iteration for the geometric median —
same convergence/termination policy as the mean (tolerance on the step size
plus the iteration cap).  Returns the final estimate together with the number
of correction steps taken. -/
def medianLoop (ss : List Quat4) : ℕ → Quat4 → Quat4 × ℕ
  | 0, est => (est, 0)
  | fuel + 1, est =>
    if normQ (wAvgTangent est ss) < meanTol then (est, 0)
    else
      ((medianLoop ss fuel (expMapQ est (wAvgTangent est ss))).1,
        (medianLoop ss fuel (expMapQ est (wAvgTangent est ss))).2 + 1)

/-- Modelled from the spec: geometric median on the sign-canonical sample
set, initialized from the geometric mean. -/
def gmedianAux (cs : List Quat4) : Quat4 :=
  (medianLoop cs maxIterations (gmeanAux cs)).1

/-- Modelled from the spec: `gmedian`, the geometric median of a quaternion
sample set (missing `squatSO3Utils.cpp`): Weiszfeld-style iterative
reweighting initialized from the geometric mean, with the same sign
reconciliation and termination policy. -/
def gmedian (ss : List Quat4) : Quat4 := gmedianAux (ss.map canonQ)

/-- An `Rcpp::DataFrame` value: an ordered association list of named numeric
columns, plus the attribute list (for the `class` attribute set by the
drivers, a character vector keyed by attribute name). -/
structure DataFrame where
  cols : List (String × List ℝ)
  attrs : List (String × List String)

/-- Name of the quaternion `w` component column. -/
def wName : String := "w"

/-- Name of the quaternion `x` component column. -/
def xName : String := "x"

/-- Name of the quaternion `y` component column. -/
def yName : String := "y"

/-- Name of the quaternion `z` component column. -/
def zName : String := "z"

/-- The four quaternion component column names written by the drivers. -/
def quatColNames : List String := [wName, xName, yName, zName]

/-- Name of the R `class` attribute. -/
def classAttrName : String := "class"

/-- The class tag `Rcpp::CharacterVector::create("qts", "tbl_df", "tbl",
"data.frame")` assigned to the output at the end of both drivers. -/
def qtsClassTag : List String := ["qts", "tbl_df", "tbl", "data.frame"]

/-- First column (if any) with the given name, in an association list of
columns — `DataFrame::operator[]` by column name, which signals an error when
the name is absent. -/
def colNamedCols (cols : List (String × List ℝ)) (nm : String) : Option (List ℝ) :=
  (cols.find? fun c => c.1 = nm).map (·.2)

/-- Column access by name on a data frame. -/
def colNamed (df : DataFrame) (nm : String) : Option (List ℝ) :=
  colNamedCols df.cols nm

/-- Scalar read `vec(i)` of the named column, bounds-checked as
`Rcpp::NumericVector::operator()` is. -/
def readElt (df : DataFrame) (nm : String) (i : ℕ) : Option ℝ := do
  let col ← colNamed df nm
  col[i]?

/-- In-place scalar write `vec(i) = v` into the first column with the given
name: fails when the column is absent (`DataFrame::operator[]` error) or the
index is out of bounds (`NumericVector::operator()` error). -/
def setColsEntry : List (String × List ℝ) → String → ℕ → ℝ → Option (List (String × List ℝ))
  | [], _, _, _ => none
  | (n, c) :: rest, nm, i, v =>
    if n = nm then
      if i < c.length then some ((n, c.set i v) :: rest) else none
    else (setColsEntry rest nm i v).map ((n, c) :: ·)

/-- Scalar write of the named column of a data frame (the columns obtained by
`outValue["w"]` etc. alias the frame's storage, so the write lands in the
frame). -/
def writeElt (df : DataFrame) (nm : String) (i : ℕ) (v : ℝ) : Option DataFrame := do
  let cols ← setColsEntry df.cols nm i v
  pure { df with cols := cols }

/-- `Rcpp::clone`: an independent deep copy; in this value-semantics model the
identity on data-frame values. -/
def clone (df : DataFrame) : DataFrame := df

/-- `DataFrame::nrows()`: the grid size `G`, the common length of the
columns (read off the first column; `0` for a column-less frame). -/
def nrows (df : DataFrame) : ℕ := ((df.cols.head?).map (·.2.length)).getD 0

/-- Read the `i`-th quaternion of a series: the body of the inner sample
loop, `wValues(i)`, `xValues(i)`, `yValues(i)`, `zValues(i)` packed into an
`Eigen::Vector4d`. -/
def readQuat (df : DataFrame) (i : ℕ) : Option Quat4 := do
  let w ← readElt df wName i
  let x ← readElt df xName i
  let y ← readElt df yName i
  let z ← readElt df zName i
  pure ⟨w, x, y, z⟩

/-- Write the four components of an aggregated quaternion into the `i`-th
grid point of the output: `wValues(i) = avgQValue(0)` … `zValues(i) =
avgQValue(3)`. -/
def writeQuat (df : DataFrame) (i : ℕ) (q : Quat4) : Option DataFrame := do
  let df ← writeElt df wName i q.w
  let df ← writeElt df xName i q.x
  let df ← writeElt df yName i q.y
  let df ← writeElt df zName i q.z
  pure df

/-- The inner loop over `j < nSamples`: gather the `i`-th quaternion of every
input series into the sample set `qValues`. -/
def gatherSamples (qts_list : List DataFrame) (i : ℕ) : Option (List Quat4) :=
  qts_list.mapM fun df => readQuat df i

/-- Overwrite (or append) an attribute in an attribute list, first occurrence
first — `outValue.attr("class") = …`. -/
def setAttrList : List (String × List String) → String → List String → List (String × List String)
  | [], nm, v => [(nm, v)]
  | (n, w) :: rest, nm, v =>
    if n = nm then (nm, v) :: rest else (n, w) :: setAttrList rest nm v

/-- Set an attribute of a data frame. -/
def setAttr (df : DataFrame) (nm : String) (v : List String) : DataFrame :=
  { df with attrs := setAttrList df.attrs nm v }

/-- Look up an attribute of a data frame (first occurrence). -/
def attrLookup (df : DataFrame) (nm : String) : Option (List String) :=
  (df.attrs.find? fun a => a.1 = nm).map (·.2)

/-- The grid loop of `mean_qts_impl`: for each grid index `i`, gather the
per-point sample set, aggregate it with `gmean`, and write the result into
the output frame.  `fuel` counts the remaining grid indices. -/
def meanGridLoop (qts_list : List DataFrame) : ℕ → ℕ → DataFrame → Option DataFrame
  | _, 0, out => some out
  | i, fuel + 1, out => do
    let samples ← gatherSamples qts_list i
    let out ← writeQuat out i (gmean samples)
    meanGridLoop qts_list (i + 1) fuel out

/-- `mean_qts_impl` (`src/squatQTSSampleClass.cpp`, lines 5–42): clone the
input list and take its first element as the output frame, loop over the
`nrows` grid indices aggregating with `gmean`, then tag the output with the
`qts` class vector. -/
def mean_qts_impl (qts_list : List DataFrame) : Option DataFrame := do
  let outValue ← (qts_list.map clone)[0]?
  let out ← meanGridLoop qts_list 0 (nrows outValue) outValue
  pure (setAttr out classAttrName qtsClassTag)

/-- The grid loop of `median_qts_impl`: identical to `meanGridLoop` except
that the sample set is aggregated with `gmedian`. -/
def medianGridLoop (qts_list : List DataFrame) : ℕ → ℕ → DataFrame → Option DataFrame
  | _, 0, out => some out
  | i, fuel + 1, out => do
    let samples ← gatherSamples qts_list i
    let out ← writeQuat out i (gmedian samples)
    medianGridLoop qts_list (i + 1) fuel out

/-- `median_qts_impl` (`src/squatQTSSampleClass.cpp`, lines 44–81): the same
driver as `mean_qts_impl` with `gmedian` in place of `gmean`. -/
def median_qts_impl (qts_list : List DataFrame) : Option DataFrame := do
  let outValue ← (qts_list.map clone)[0]?
  let out ← medianGridLoop qts_list 0 (nrows outValue) outValue
  pure (setAttr out classAttrName qtsClassTag)

/-- Generic series-aggregation grid loop over an arbitrary per-point
aggregator, following the spec's words for the Series Aggregation Driver. -/
def genGridLoop (agg : List Quat4 → Quat4) (qts_list : List DataFrame) :
    ℕ → ℕ → DataFrame → Option DataFrame
  | _, 0, out => some out
  | i, fuel + 1, out => do
    let samples ← gatherSamples qts_list i
    let out ← writeQuat out i (agg samples)
    genGridLoop agg qts_list (i + 1) fuel out

/-- Modelled from the spec: the Series Aggregation Driver as the spec words
it — "construct the output as a structural copy of the first input …; for
each grid index …: gather the i-th rotation quaternion from each of the N
inputs …; call the aggregator; write the resulting quaternion's four
components into the output's i-th grid point"; tag the result as a QTS-typed
table.  `mean_series` is this driver with `gmean`, `median_series` with
`gmedian`. -/
def seriesDriver (agg : List Quat4 → Quat4) (qts_list : List DataFrame) : Option DataFrame := do
  let outValue ← (qts_list.map clone)[0]?
  let out ← genGridLoop agg qts_list 0 (nrows outValue) outValue
  pure (setAttr out classAttrName qtsClassTag)

/-- The R heap of data-frame objects, for the mutation model: frames are
referenced by position. -/
abbrev Store := List DataFrame

/-- Read a quaternion through the heap: dereference an input's heap
reference, then read its `i`-th grid point. -/
def gatherHeap (refs : List ℕ) (st : Store) (i : ℕ) : Option (List Quat4) :=
  refs.mapM fun r => do
    let df ← st[r]?
    readQuat df i

/-- Write a quaternion through the heap: the write mutates the referenced
frame in place, leaving every other heap cell untouched. -/
def writeQuatRef (st : Store) (r : ℕ) (i : ℕ) (q : Quat4) : Option Store := do
  let df ← st[r]?
  let df' ← writeQuat df i q
  pure (st.set r df')

/-- Set an attribute of a heap-referenced frame in place —
`outValue.attr("class") = …` through the heap. -/
def writeAttrRef (st : Store) (r : ℕ) (nm : String) (v : List String) : Option Store := do
  let df ← st[r]?
  pure (st.set r (setAttr df nm v))

/-- Heap-level grid loop of `mean_qts_impl`: reads go through the current
heap, writes go through the output reference. -/
def meanGridLoopHeap (refs : List ℕ) (outRef : ℕ) : ℕ → ℕ → Store → Option Store
  | _, 0, st => some st
  | i, fuel + 1, st => do
    let samples ← gatherHeap refs st i
    let st ← writeQuatRef st outRef i (gmean samples)
    meanGridLoopHeap refs outRef (i + 1) fuel st

/-- Heap-level model of `mean_qts_impl`: the input list is a list of heap
references; `Rcpp::clone(qts_list)[0]` allocates a fresh copy of the first
referenced frame (the clones of the remaining elements are dropped
unobserved), and the grid loop writes only through the fresh reference.
Returns the final heap and the output's reference. -/
def mean_qts_impl_heap (st : Store) (refs : List ℕ) : Option (Store × ℕ) := do
  let r0 ← refs[0]?
  let df ← (st : List DataFrame)[r0]?
  let st1 : Store := st ++ [clone df]
  let outRef := st.length
  let outValue ← st1[outRef]?
  let st2 ← meanGridLoopHeap refs outRef 0 (nrows outValue) st1
  let st3 ← writeAttrRef st2 outRef classAttrName qtsClassTag
  pure (st3, outRef)

/-- Heap-level grid loop of `median_qts_impl`. -/
def medianGridLoopHeap (refs : List ℕ) (outRef : ℕ) : ℕ → ℕ → Store → Option Store
  | _, 0, st => some st
  | i, fuel + 1, st => do
    let samples ← gatherHeap refs st i
    let st ← writeQuatRef st outRef i (gmedian samples)
    medianGridLoopHeap refs outRef (i + 1) fuel st

/-- Heap-level model of `median_qts_impl`. -/
def median_qts_impl_heap (st : Store) (refs : List ℕ) : Option (Store × ℕ) := do
  let r0 ← refs[0]?
  let df ← (st : List DataFrame)[r0]?
  let st1 : Store := st ++ [clone df]
  let outRef := st.length
  let outValue ← st1[outRef]?
  let st2 ← medianGridLoopHeap refs outRef 0 (nrows outValue) st1
  let st3 ← writeAttrRef st2 outRef classAttrName qtsClassTag
  pure (st3, outRef)

/-- One Karcher-mean correction step: push the averaged tangent vector back
through the exponential map. -/
def meanStep (ss : List Quat4) (est : Quat4) : Quat4 := expMapQ est (avgTangent est ss)

/-- One Weiszfeld correction step: push the weighted averaged tangent vector
back through the exponential map. -/
def medianStep (ss : List Quat4) (est : Quat4) : Quat4 := expMapQ est (wAvgTangent est ss)

/-- Number of correction steps the geometric-mean iteration performs. -/
def gmeanIters (ss : List Quat4) : ℕ :=
  (meanLoop (ss.map canonQ) maxIterations (chordalInit (ss.map canonQ))).2

/-- Number of correction steps the geometric-median iteration performs. -/
def gmedianIters (ss : List Quat4) : ℕ :=
  (medianLoop (ss.map canonQ) maxIterations (gmeanAux (ss.map canonQ))).2

/-- The column shape of a data frame: the ordered list of column names with
their lengths. -/
def colShape (df : DataFrame) : List (String × ℕ) :=
  df.cols.map fun c => (c.1, c.2.length)

/-- The frame has the four quaternion component columns, each of length `G`. -/
def hasQuatCols (G : ℕ) (df : DataFrame) : Prop :=
  ∀ nm ∈ quatColNames, ∃ col, colNamed df nm = some col ∧ col.length = G

/-- A well-formed QTS frame of grid size `G`: the row count is `G` and the
four quaternion columns are present with length `G`. -/
def wellFormedDF (G : ℕ) (df : DataFrame) : Prop :=
  nrows df = G ∧ hasQuatCols G df

/-- A one-grid-point QTS holding the identity rotation `(1, 0, 0, 0)`, used
as the concrete input of the witnesses. -/
def exampleQTS : DataFrame :=
  ⟨[(wName, [1]), (xName, [0]), (yName, [0]), (zName, [0])],
    [(classAttrName, qtsClassTag)]⟩

/-- A one-grid-point QTS holding `(-1, 0, 0, 0)`, the non-canonical sign
representative of the identity rotation. -/
def negwQTS : DataFrame :=
  ⟨[(wName, [-1]), (xName, [0]), (yName, [0]), (zName, [0])],
    [(classAttrName, qtsClassTag)]⟩

/-- Name of a time/index column carried through unchanged by the drivers. -/
def timeName : String := "time"

/-- A one-grid-point QTS with a leading time column, holding the identity
rotation; used to witness that non-quaternion columns are left as cloned. -/
def exampleTimeQTS : DataFrame :=
  ⟨[(timeName, [0]), (wName, [1]), (xName, [0]), (yName, [0]), (zName, [0])],
    [(classAttrName, qtsClassTag)]⟩

theorem smulZeroQ (a : ℝ) : a • (0 : Quat4) = 0 := by ext <;> simp

theorem oneInvSmulQ (q : Quat4) : ((1 : ℝ))⁻¹ • q = q := by ext <;> simp

theorem normQZero : normQ 0 = 0 := by simp [normQ, dotQ]

theorem normQUnit {q : Quat4} (h : dotQ q q = 1) : normQ q = 1 := by
  rw [normQ, h, Real.sqrt_one]

theorem normalizeQUnit {q : Quat4} (h : dotQ q q = 1) : normalizeQ q = q := by
  rw [normalizeQ, normQUnit h, if_neg one_ne_zero]
  exact oneInvSmulQ q

theorem reconcileSelf {q : Quat4} (h : dotQ q q = 1) : reconcile q q = q := by
  rw [reconcile, h, if_neg (by norm_num)]

theorem logMapQSelf {q : Quat4} (h : dotQ q q = 1) : logMapQ q q = 0 := by
  have ht : q - dotQ q q • q = 0 := by rw [h]; ext <;> simp
  rw [logMapQ, ht, normQZero, if_pos rfl]

theorem avgTangentSingle {q : Quat4} (h : dotQ q q = 1) : avgTangent q [q] = 0 := by
  simp [avgTangent, reconcileSelf h, logMapQSelf h, smulZeroQ]

theorem wAvgTangentSingle {q : Quat4} (h : dotQ q q = 1) : wAvgTangent q [q] = 0 := by
  simp [wAvgTangent, reconcileSelf h, logMapQSelf h, smulZeroQ]

theorem normQZeroLtTol : normQ 0 < meanTol := by
  rw [normQZero, meanTol]; norm_num

theorem meanLoopStop {ss : List Quat4} {est : Quat4}
    (h : normQ (avgTangent est ss) < meanTol) (fuel : ℕ) :
    meanLoop ss fuel est = (est, 0) := by
  cases fuel with
  | zero => rfl
  | succ f => rw [meanLoop, if_pos h]

theorem medianLoopStop {ss : List Quat4} {est : Quat4}
    (h : normQ (wAvgTangent est ss) < meanTol) (fuel : ℕ) :
    medianLoop ss fuel est = (est, 0) := by
  cases fuel with
  | zero => rfl
  | succ f => rw [medianLoop, if_pos h]

theorem chordalInitSingle {q : Quat4} (h : dotQ q q = 1) : chordalInit [q] = q := by
  rw [chordalInit]
  have hl : ((([q] : List Quat4).length : ℕ) : ℝ) = 1 := by simp
  rw [hl]
  simp only [List.sum_cons, List.sum_nil, add_zero]
  rw [oneInvSmulQ, normalizeQUnit h]

theorem gmeanAuxSingle {q : Quat4} (h : dotQ q q = 1) : gmeanAux [q] = q := by
  rw [gmeanAux, chordalInitSingle h,
    meanLoopStop (by rw [avgTangentSingle h]; exact normQZeroLtTol) maxIterations]

theorem gmeanSingle {q : Quat4} (h1 : dotQ q q = 1) (h2 : canonQ q = q) :
    gmean [q] = q := by
  rw [gmean, List.map_cons, List.map_nil, h2, gmeanAuxSingle h1]

theorem gmedianAuxSingle {q : Quat4} (h : dotQ q q = 1) : gmedianAux [q] = q := by
  rw [gmedianAux, gmeanAuxSingle h,
    medianLoopStop (by rw [wAvgTangentSingle h]; exact normQZeroLtTol) maxIterations]

theorem gmedianSingle {q : Quat4} (h1 : dotQ q q = 1) (h2 : canonQ q = q) :
    gmedian [q] = q := by
  rw [gmedian, List.map_cons, List.map_nil, h2, gmedianAuxSingle h1]

theorem canonQNeg (q : Quat4) : canonQ (-q) = canonQ q := by
  unfold canonQ
  simp only [Quat4.neg_w, Quat4.neg_x, Quat4.neg_y, Quat4.neg_z, neg_pos,
    neg_lt_zero, neg_neg]
  split_ifs <;> first | rfl | linarith | (ext <;> simp <;> linarith)

theorem avgTangentPerm {s₁ s₂ : List Quat4} (h : s₁.Perm s₂) (est : Quat4) :
    avgTangent est s₁ = avgTangent est s₂ := by
  rw [avgTangent, avgTangent, h.length_eq, (h.map _).sum_eq]

theorem wAvgTangentPerm {s₁ s₂ : List Quat4} (h : s₁.Perm s₂) (est : Quat4) :
    wAvgTangent est s₁ = wAvgTangent est s₂ := by
  rw [wAvgTangent, wAvgTangent, (h.map _).sum_eq, (h.map _).sum_eq]

theorem meanLoopPerm {s₁ s₂ : List Quat4} (h : s₁.Perm s₂) :
    ∀ (fuel : ℕ) (est : Quat4), meanLoop s₁ fuel est = meanLoop s₂ fuel est := by
  intro fuel
  induction fuel with
  | zero => intro est; rfl
  | succ f ih =>
    intro est
    rw [meanLoop, meanLoop, avgTangentPerm h est, ih]

theorem medianLoopPerm {s₁ s₂ : List Quat4} (h : s₁.Perm s₂) :
    ∀ (fuel : ℕ) (est : Quat4), medianLoop s₁ fuel est = medianLoop s₂ fuel est := by
  intro fuel
  induction fuel with
  | zero => intro est; rfl
  | succ f ih =>
    intro est
    rw [medianLoop, medianLoop, wAvgTangentPerm h est, ih]

theorem chordalInitPerm {s₁ s₂ : List Quat4} (h : s₁.Perm s₂) :
    chordalInit s₁ = chordalInit s₂ := by
  rw [chordalInit, chordalInit, h.length_eq, h.sum_eq]

theorem gmeanAuxPerm {s₁ s₂ : List Quat4} (h : s₁.Perm s₂) :
    gmeanAux s₁ = gmeanAux s₂ := by
  rw [gmeanAux, gmeanAux, chordalInitPerm h, meanLoopPerm h]

theorem gmedianAuxPerm {s₁ s₂ : List Quat4} (h : s₁.Perm s₂) :
    gmedianAux s₁ = gmedianAux s₂ := by
  rw [gmedianAux, gmedianAux, gmeanAuxPerm h, medianLoopPerm h]

theorem mapCanonSign {s₁ s₂ : List Quat4}
    (h : List.Forall₂ (fun p q => q = p ∨ q = -p) s₁ s₂) :
    s₂.map canonQ = s₁.map canonQ := by
  induction h with
  | nil => rfl
  | @cons p q l₁ l₂ hpq htail ih =>
    simp only [List.map_cons, ih]
    rcases hpq with h' | h'
    · rw [h']
    · rw [h', canonQNeg]

theorem meanLoopSpec (ss : List Quat4) : ∀ (fuel : ℕ) (est : Quat4),
    (meanLoop ss fuel est).2 ≤ fuel ∧
    (meanLoop ss fuel est).1 = (meanStep ss)^[(meanLoop ss fuel est).2] est ∧
    ((meanLoop ss fuel est).2 < fuel →
      normQ (avgTangent (meanLoop ss fuel est).1 ss) < meanTol) := by
  intro fuel
  induction fuel with
  | zero => intro est; exact ⟨le_refl 0, rfl, fun h => absurd h (lt_irrefl 0)⟩
  | succ f ih =>
    intro est
    rw [meanLoop]
    by_cases h : normQ (avgTangent est ss) < meanTol
    · rw [if_pos h]
      exact ⟨Nat.zero_le _, rfl, fun _ => h⟩
    · rw [if_neg h]
      obtain ⟨h1, h2, h3⟩ := ih (expMapQ est (avgTangent est ss))
      refine ⟨Nat.succ_le_succ h1, ?_, fun hlt => h3 (Nat.lt_of_succ_lt_succ hlt)⟩
      rw [h2, Function.iterate_succ_apply]
      rfl

theorem medianLoopSpec (ss : List Quat4) : ∀ (fuel : ℕ) (est : Quat4),
    (medianLoop ss fuel est).2 ≤ fuel ∧
    (medianLoop ss fuel est).1 = (medianStep ss)^[(medianLoop ss fuel est).2] est ∧
    ((medianLoop ss fuel est).2 < fuel →
      normQ (wAvgTangent (medianLoop ss fuel est).1 ss) < meanTol) := by
  intro fuel
  induction fuel with
  | zero => intro est; exact ⟨le_refl 0, rfl, fun h => absurd h (lt_irrefl 0)⟩
  | succ f ih =>
    intro est
    rw [medianLoop]
    by_cases h : normQ (wAvgTangent est ss) < meanTol
    · rw [if_pos h]
      exact ⟨Nat.zero_le _, rfl, fun _ => h⟩
    · rw [if_neg h]
      obtain ⟨h1, h2, h3⟩ := ih (expMapQ est (wAvgTangent est ss))
      refine ⟨Nat.succ_le_succ h1, ?_, fun hlt => h3 (Nat.lt_of_succ_lt_succ hlt)⟩
      rw [h2, Function.iterate_succ_apply]
      rfl

theorem colNamedColsCons (n : String) (c : List ℝ) (rest : List (String × List ℝ))
    (nm : String) :
    colNamedCols ((n, c) :: rest) nm = if n = nm then some c else colNamedCols rest nm := by
  by_cases h : n = nm
  · rw [if_pos h]
    unfold colNamedCols
    rw [List.find?_cons_of_pos _ (by simp [h])]
    rfl
  · rw [if_neg h]
    unfold colNamedCols
    rw [List.find?_cons_of_neg _ (by simp [h])]

theorem setColsEntryChar (nm : String) (i : ℕ) (v : ℝ) :
    ∀ (cols cols' : List (String × List ℝ)),
      setColsEntry cols nm i v = some cols' →
      List.map (fun c => (c.1, c.2.length)) cols' =
        List.map (fun c => (c.1, c.2.length)) cols ∧
      (∀ nm', nm' ≠ nm → colNamedCols cols' nm' = colNamedCols cols nm') ∧
      ∃ col, colNamedCols cols nm = some col ∧ i < col.length ∧
        colNamedCols cols' nm = some (col.set i v) := by
  intro cols
  induction cols with
  | nil => intro cols' h; rw [setColsEntry] at h; exact absurd h (by simp)
  | cons head rest ih =>
    obtain ⟨n, c⟩ := head
    intro cols' h
    rw [setColsEntry] at h
    by_cases hn : n = nm
    · rw [if_pos hn] at h
      by_cases hi : i < c.length
      · rw [if_pos hi] at h
        simp only [Option.some.injEq] at h
        subst h
        refine ⟨by simp, ?_, c, ?_, hi, ?_⟩
        · intro nm' hne
          have hn' : n ≠ nm' := by rw [hn]; exact Ne.symm hne
          rw [colNamedColsCons, colNamedColsCons, if_neg hn', if_neg hn']
        · rw [colNamedColsCons, if_pos hn]
        · rw [colNamedColsCons, if_pos hn]
      · rw [if_neg hi] at h; exact absurd h (by simp)
    · rw [if_neg hn] at h
      cases hrest : setColsEntry rest nm i v with
      | none => rw [hrest] at h; simp at h
      | some rest' =>
        rw [hrest] at h
        simp only [Option.map_some', Option.some.injEq] at h
        subst h
        obtain ⟨sh, pres, col, h1, h2, h3⟩ := ih rest' hrest
        refine ⟨by simp [sh], ?_, col, ?_, h2, ?_⟩
        · intro nm' hne
          rw [colNamedColsCons, colNamedColsCons]
          by_cases h2 : n = nm'
          · rw [if_pos h2, if_pos h2]
          · rw [if_neg h2, if_neg h2, pres nm' hne]
        · rw [colNamedColsCons, if_neg hn]; exact h1
        · rw [colNamedColsCons, if_neg hn]; exact h3

theorem setSameList : ∀ (l : List ℝ) (i : ℕ) (a : ℝ), l[i]? = some a → l.set i a = l := by
  intro l
  induction l with
  | nil => intro i a h; simp at h
  | cons b t ih =>
    intro i a h
    cases i with
    | zero =>
      simp only [List.getElem?_cons_zero, Option.some.injEq] at h
      rw [List.set_cons_zero, h]
    | succ j =>
      simp only [List.getElem?_cons_succ] at h
      rw [List.set_cons_succ, ih j a h]

theorem setColsEntrySame (nm : String) (i : ℕ) (v : ℝ) :
    ∀ (cols : List (String × List ℝ)) (col : List ℝ),
      colNamedCols cols nm = some col → col[i]? = some v →
      setColsEntry cols nm i v = some cols := by
  intro cols
  induction cols with
  | nil => intro col h _; rw [colNamedCols] at h; simp [List.find?] at h
  | cons head rest ih =>
    obtain ⟨n, c⟩ := head
    intro col h hv
    rw [colNamedColsCons] at h
    by_cases hn : n = nm
    · rw [if_pos hn] at h
      simp only [Option.some.injEq] at h
      subst h
      have hlt : i < c.length := (List.getElem?_eq_some_iff.mp hv).1
      rw [setColsEntry, if_pos hn, if_pos hlt, setSameList c i v hv]
    · rw [if_neg hn] at h
      rw [setColsEntry, if_neg hn, ih col h hv]
      rfl

theorem writeEltSame {df : DataFrame} {nm : String} {i : ℕ} {v : ℝ}
    (h : readElt df nm i = some v) : writeElt df nm i v = some df := by
  rw [readElt] at h
  cases hc : colNamed df nm with
  | none => rw [hc] at h; simp at h
  | some col =>
    rw [hc] at h
    simp only [Option.bind_eq_bind, Option.some_bind] at h
    rw [writeElt, setColsEntrySame nm i v df.cols col hc h]
    rfl

theorem writeEltChar {df df' : DataFrame} {nm : String} {i : ℕ} {v : ℝ}
    (h : writeElt df nm i v = some df') :
    colShape df' = colShape df ∧ df'.attrs = df.attrs ∧
    (∀ nm', nm' ≠ nm → colNamed df' nm' = colNamed df nm') ∧
    ∃ col, colNamed df nm = some col ∧ i < col.length ∧
      colNamed df' nm = some (col.set i v) := by
  rw [writeElt] at h
  cases hs : setColsEntry df.cols nm i v with
  | none => rw [hs] at h; simp at h
  | some cols' =>
    rw [hs] at h
    simp only [Option.bind_eq_bind, Option.some_bind, Option.pure_def,
      Option.some.injEq] at h
    obtain ⟨sh, pres, col, h1, h2, h3⟩ := setColsEntryChar nm i v df.cols cols' hs
    subst h
    exact ⟨sh, rfl, pres, col, h1, h2, h3⟩

theorem quatNamesDistinct :
    wName ≠ xName ∧ wName ≠ yName ∧ wName ≠ zName ∧
    xName ≠ yName ∧ xName ≠ zName ∧ yName ≠ zName := by
  refine ⟨?_, ?_, ?_, ?_, ?_, ?_⟩ <;> simp [wName, xName, yName, zName]

theorem readEltOfCol {df : DataFrame} {nm : String} {col : List ℝ}
    (hc : colNamed df nm = some col) (i : ℕ) : readElt df nm i = col[i]? := by
  rw [readElt, hc]
  rfl

theorem readQuatCongr {df df' : DataFrame} {j : ℕ}
    (h : ∀ nm, nm ∈ quatColNames → readElt df' nm j = readElt df nm j) :
    readQuat df' j = readQuat df j := by
  rw [readQuat, readQuat, h wName (by simp [quatColNames]),
    h xName (by simp [quatColNames]), h yName (by simp [quatColNames]),
    h zName (by simp [quatColNames])]

theorem readQuatExists {G : ℕ} {df : DataFrame} (h : hasQuatCols G df) {i : ℕ}
    (hi : i < G) : ∃ q, readQuat df i = some q := by
  obtain ⟨cw, hcw, hlw⟩ := h wName (by simp [quatColNames])
  obtain ⟨cx, hcx, hlx⟩ := h xName (by simp [quatColNames])
  obtain ⟨cy, hcy, hly⟩ := h yName (by simp [quatColNames])
  obtain ⟨cz, hcz, hlz⟩ := h zName (by simp [quatColNames])
  have h1 : i < cw.length := by rw [hlw]; exact hi
  have h2 : i < cx.length := by rw [hlx]; exact hi
  have h3 : i < cy.length := by rw [hly]; exact hi
  have h4 : i < cz.length := by rw [hlz]; exact hi
  refine ⟨⟨cw[i], cx[i], cy[i], cz[i]⟩, ?_⟩
  rw [readQuat, readEltOfCol hcw, readEltOfCol hcx, readEltOfCol hcy,
    readEltOfCol hcz, List.getElem?_eq_getElem h1, List.getElem?_eq_getElem h2,
    List.getElem?_eq_getElem h3, List.getElem?_eq_getElem h4]
  rfl

theorem colNamedLenOfShape : ∀ (cols cols' : List (String × List ℝ)),
    List.map (fun c => (c.1, c.2.length)) cols' =
      List.map (fun c => (c.1, c.2.length)) cols →
    ∀ nm, Option.map List.length (colNamedCols cols' nm) =
      Option.map List.length (colNamedCols cols nm) := by
  intro cols
  induction cols with
  | nil =>
    intro cols' h nm
    cases cols' with
    | nil => rfl
    | cons a t => simp at h
  | cons a t ih =>
    intro cols' h nm
    cases cols' with
    | nil => simp at h
    | cons b t' =>
      obtain ⟨n₁, c₁⟩ := a
      obtain ⟨n₂, c₂⟩ := b
      simp only [List.map_cons, List.cons.injEq, Prod.mk.injEq] at h
      obtain ⟨⟨hn, hl⟩, ht⟩ := h
      rw [colNamedColsCons, colNamedColsCons, hn]
      by_cases hcase : n₁ = nm
      · rw [if_pos hcase, if_pos hcase]
        simp [hl]
      · rw [if_neg hcase, if_neg hcase]
        exact ih t' ht nm

theorem hasQuatColsOfShape {df df' : DataFrame} (hsh : colShape df' = colShape df)
    {G : ℕ} (h : hasQuatCols G df) : hasQuatCols G df' := by
  intro nm hnm
  obtain ⟨col, hc, hl⟩ := h nm hnm
  have hlen := colNamedLenOfShape df.cols df'.cols hsh nm
  rw [show colNamedCols df.cols nm = some col from hc] at hlen
  cases h' : colNamedCols df'.cols nm with
  | none => rw [h'] at hlen; simp at hlen
  | some col' =>
    rw [h'] at hlen
    simp only [Option.map_some', Option.some.injEq] at hlen
    exact ⟨col', h', by rw [hlen, hl]⟩

theorem setColsEntryExists (nm : String) (i : ℕ) (v : ℝ) :
    ∀ (cols : List (String × List ℝ)) (col : List ℝ),
      colNamedCols cols nm = some col → i < col.length →
      ∃ cols', setColsEntry cols nm i v = some cols' := by
  intro cols
  induction cols with
  | nil => intro col h _; rw [colNamedCols] at h; simp [List.find?] at h
  | cons head rest ih =>
    obtain ⟨n, c⟩ := head
    intro col h hi
    rw [colNamedColsCons] at h
    by_cases hn : n = nm
    · rw [if_pos hn] at h
      simp only [Option.some.injEq] at h
      subst h
      exact ⟨(n, c.set i v) :: rest, by rw [setColsEntry, if_pos hn, if_pos hi]⟩
    · rw [if_neg hn] at h
      obtain ⟨rest', hrest⟩ := ih col h hi
      exact ⟨(n, c) :: rest', by rw [setColsEntry, if_neg hn, hrest]; rfl⟩

theorem writeEltExists {df : DataFrame} {nm : String} {col : List ℝ}
    (hc : colNamed df nm = some col) {i : ℕ} (hi : i < col.length) (v : ℝ) :
    ∃ df', writeElt df nm i v = some df' := by
  obtain ⟨cols', hcols⟩ := setColsEntryExists nm i v df.cols col hc hi
  exact ⟨{ df with cols := cols' }, by rw [writeElt, hcols]; rfl⟩

theorem writeQuatChar {df df' : DataFrame} {i : ℕ} {q : Quat4}
    (h : writeQuat df i q = some df') :
    colShape df' = colShape df ∧ df'.attrs = df.attrs ∧
    (∀ nm, nm ∉ quatColNames → colNamed df' nm = colNamed df nm) ∧
    readQuat df' i = some q ∧
    (∀ j, j ≠ i → readQuat df' j = readQuat df j) := by
  obtain ⟨hwx, hwy, hwz, hxy, hxz, hyz⟩ := quatNamesDistinct
  rw [writeQuat] at h
  simp only [Option.bind_eq_bind, Option.bind_eq_some, Option.pure_def,
    Option.some.injEq] at h
  obtain ⟨df1, h1, df2, h2, df3, h3, df4, h4, h5⟩ := h
  subst h5
  obtain ⟨s1, a1, p1, c1, hc1, hl1, hc1'⟩ := writeEltChar h1
  obtain ⟨s2, a2, p2, c2, hc2, hl2, hc2'⟩ := writeEltChar h2
  obtain ⟨s3, a3, p3, c3, hc3, hl3, hc3'⟩ := writeEltChar h3
  obtain ⟨s4, a4, p4, c4, hc4, hl4, hc4'⟩ := writeEltChar h4
  have colw : colNamed df4 wName = some (c1.set i q.w) := by
    rw [p4 wName hwz, p3 wName hwy, p2 wName hwx]; exact hc1'
  have colx : colNamed df4 xName = some (c2.set i q.x) := by
    rw [p4 xName hxz, p3 xName hxy]; exact hc2'
  have coly : colNamed df4 yName = some (c3.set i q.y) := by
    rw [p4 yName hyz]; exact hc3'
  have colz : colNamed df4 zName = some (c4.set i q.z) := hc4'
  have colwd : colNamed df wName = some c1 := hc1
  have colxd : colNamed df xName = some c2 := by
    rw [← p1 xName (Ne.symm hwx)]; exact hc2
  have colyd : colNamed df yName = some c3 := by
    rw [← p1 yName (Ne.symm hwy), ← p2 yName (Ne.symm hxy)]; exact hc3
  have colzd : colNamed df zName = some c4 := by
    rw [← p1 zName (Ne.symm hwz), ← p2 zName (Ne.symm hxz),
      ← p3 zName (Ne.symm hyz)]; exact hc4
  refine ⟨?_, ?_, ?_, ?_, ?_⟩
  · exact s4.trans (s3.trans (s2.trans s1))
  · exact a4.trans (a3.trans (a2.trans a1))
  · intro nm hnm
    simp only [quatColNames, List.mem_cons, List.not_mem_nil, or_false,
      not_or] at hnm
    obtain ⟨hnw, hnx, hny, hnz⟩ := hnm
    rw [p4 nm hnz, p3 nm hny, p2 nm hnx, p1 nm hnw]
  · rw [readQuat, readEltOfCol colw, readEltOfCol colx, readEltOfCol coly,
      readEltOfCol colz, List.getElem?_set_self hl1, List.getElem?_set_self hl2,
      List.getElem?_set_self hl3, List.getElem?_set_self hl4]
    rfl
  · intro j hj
    have hij : i ≠ j := fun hh => hj hh.symm
    apply readQuatCongr
    intro nm hnm
    simp only [quatColNames, List.mem_cons, List.not_mem_nil, or_false] at hnm
    rcases hnm with rfl | rfl | rfl | rfl
    · rw [readEltOfCol colw, readEltOfCol colwd, List.getElem?_set_ne hij]
    · rw [readEltOfCol colx, readEltOfCol colxd, List.getElem?_set_ne hij]
    · rw [readEltOfCol coly, readEltOfCol colyd, List.getElem?_set_ne hij]
    · rw [readEltOfCol colz, readEltOfCol colzd, List.getElem?_set_ne hij]

theorem writeQuatExists {G : ℕ} {df : DataFrame} (h : hasQuatCols G df) {i : ℕ}
    (hi : i < G) (q : Quat4) : ∃ df', writeQuat df i q = some df' := by
  obtain ⟨cw, hcw, hlw⟩ := h wName (by simp [quatColNames])
  obtain ⟨df1, h1⟩ := writeEltExists hcw (by rw [hlw]; exact hi) q.w
  have hq1 : hasQuatCols G df1 := hasQuatColsOfShape (writeEltChar h1).1 h
  obtain ⟨cx, hcx, hlx⟩ := hq1 xName (by simp [quatColNames])
  obtain ⟨df2, h2⟩ := writeEltExists hcx (by rw [hlx]; exact hi) q.x
  have hq2 : hasQuatCols G df2 := hasQuatColsOfShape (writeEltChar h2).1 hq1
  obtain ⟨cy, hcy, hly⟩ := hq2 yName (by simp [quatColNames])
  obtain ⟨df3, h3⟩ := writeEltExists hcy (by rw [hly]; exact hi) q.y
  have hq3 : hasQuatCols G df3 := hasQuatColsOfShape (writeEltChar h3).1 hq2
  obtain ⟨cz, hcz, hlz⟩ := hq3 zName (by simp [quatColNames])
  obtain ⟨df4, h4⟩ := writeEltExists hcz (by rw [hlz]; exact hi) q.z
  refine ⟨df4, ?_⟩
  rw [writeQuat]
  simp only [Option.bind_eq_bind, h1, Option.some_bind, h2, h3, h4,
    Option.pure_def]

theorem writeQuatSame {df : DataFrame} {i : ℕ} {q : Quat4}
    (h : readQuat df i = some q) : writeQuat df i q = some df := by
  rw [readQuat] at h
  simp only [Option.bind_eq_bind, Option.bind_eq_some, Option.pure_def,
    Option.some.injEq] at h
  obtain ⟨w, hw, x, hx, y, hy, z, hz, hq⟩ := h
  subst hq
  rw [writeQuat]
  simp only [Option.bind_eq_bind]
  simp only [writeEltSame hw, Option.some_bind, writeEltSame hx,
    writeEltSame hy, writeEltSame hz, Option.pure_def]

theorem gatherFull {G : ℕ} {l : List DataFrame} (hl : ∀ df ∈ l, hasQuatCols G df)
    {i : ℕ} (hi : i < G) :
    ∃ s, gatherSamples l i = some s ∧
      List.Forall₂ (fun df q => readQuat df i = some q) l s := by
  induction l with
  | nil => exact ⟨[], rfl, List.Forall₂.nil⟩
  | cons df t ih =>
    obtain ⟨q, hq⟩ := readQuatExists (hl df (by simp)) hi
    obtain ⟨s, hs, hf⟩ := ih fun df' hdf' => hl df' (by simp [hdf'])
    refine ⟨q :: s, ?_, List.Forall₂.cons hq hf⟩
    rw [gatherSamples, List.mapM_cons]
    rw [gatherSamples] at hs
    simp only [hq, hs, Option.bind_eq_bind, Option.some_bind, Option.pure_def]

theorem gatherLenInv {l : List DataFrame} {i : ℕ} :
    ∀ {s : List Quat4}, gatherSamples l i = some s →
      s.length = l.length ∧
      List.Forall₂ (fun df q => readQuat df i = some q) l s := by
  induction l with
  | nil =>
    intro s h
    rw [gatherSamples] at h
    simp only [List.mapM_nil, Option.pure_def, Option.some.injEq] at h
    subst h
    exact ⟨rfl, List.Forall₂.nil⟩
  | cons df t ih =>
    intro s h
    rw [gatherSamples, List.mapM_cons] at h
    simp only [Option.bind_eq_bind, Option.bind_eq_some, Option.pure_def,
      Option.some.injEq] at h
    obtain ⟨q, hq, s', hs', hsv⟩ := h
    subst hsv
    have hs'' : gatherSamples t i = some s' := hs'
    obtain ⟨hlen, hf⟩ := ih hs''
    exact ⟨by simp [hlen], List.Forall₂.cons hq hf⟩

theorem genGridLoopFull (agg : List Quat4 → Quat4) {l : List DataFrame} {G : ℕ}
    (hl : ∀ df ∈ l, hasQuatCols G df) :
    ∀ (fuel i : ℕ) (out : DataFrame), i + fuel ≤ G → hasQuatCols G out →
    ∃ out', genGridLoop agg l i fuel out = some out' ∧ hasQuatCols G out' ∧
      colShape out' = colShape out ∧ out'.attrs = out.attrs ∧
      (∀ k, k < i → readQuat out' k = readQuat out k) ∧
      (∀ nm, nm ∉ quatColNames → colNamed out' nm = colNamed out nm) ∧
      (∀ k, i ≤ k → k < i + fuel →
        ∃ s, gatherSamples l k = some s ∧
          List.Forall₂ (fun df q => readQuat df k = some q) l s ∧
          readQuat out' k = some (agg s)) := by
  intro fuel
  induction fuel with
  | zero =>
    intro i out hG hout
    exact ⟨out, rfl, hout, rfl, rfl, fun k _ => rfl, fun nm _ => rfl,
      fun k hk1 hk2 => absurd hk2 (by omega)⟩
  | succ f ih =>
    intro i out hG hout
    have hiG : i < G := by omega
    obtain ⟨s, hs, hf⟩ := gatherFull hl hiG
    obtain ⟨out1, hw⟩ := writeQuatExists hout hiG (agg s)
    obtain ⟨sh1, at1, np1, rq1, pres1⟩ := writeQuatChar hw
    have hout1 : hasQuatCols G out1 := hasQuatColsOfShape sh1 hout
    obtain ⟨out', hloop, hout', sh', at', presLow, presCol, hAgg⟩ :=
      ih (i + 1) out1 (by omega) hout1
    refine ⟨out', ?_, hout', sh'.trans sh1, at'.trans at1, ?_, ?_, ?_⟩
    · rw [genGridLoop]
      simp only [Option.bind_eq_bind, hs, Option.some_bind, hw]
      exact hloop
    · intro k hk
      rw [presLow k (by omega), pres1 k (by omega)]
    · intro nm hnm
      rw [presCol nm hnm, np1 nm hnm]
    · intro k hk1 hk2
      by_cases hk : k = i
      · subst hk
        refine ⟨s, hs, hf, ?_⟩
        rw [presLow k (by omega)]
        exact rq1
      · exact hAgg k (by omega) (by omega)

theorem genGridLoopInv (agg : List Quat4 → Quat4) {l : List DataFrame} :
    ∀ (fuel i : ℕ) (out out' : DataFrame),
      genGridLoop agg l i fuel out = some out' →
      colShape out' = colShape out ∧ out'.attrs = out.attrs ∧
      (∀ nm, nm ∉ quatColNames → colNamed out' nm = colNamed out nm) ∧
      (∀ k, k < i → readQuat out' k = readQuat out k) ∧
      (∀ k, i ≤ k → k < i + fuel →
        ∃ s, gatherSamples l k = some s ∧ s.length = l.length ∧
          List.Forall₂ (fun df q => readQuat df k = some q) l s ∧
          readQuat out' k = some (agg s)) := by
  intro fuel
  induction fuel with
  | zero =>
    intro i out out' h
    rw [genGridLoop] at h
    simp only [Option.some.injEq] at h
    subst h
    exact ⟨rfl, rfl, fun nm _ => rfl, fun k _ => rfl,
      fun k hk1 hk2 => absurd hk2 (by omega)⟩
  | succ f ih =>
    intro i out out' h
    rw [genGridLoop] at h
    simp only [Option.bind_eq_bind, Option.bind_eq_some] at h
    obtain ⟨s, hs, out1, hw, hloop⟩ := h
    obtain ⟨sh1, at1, np1, rq1, pres1⟩ := writeQuatChar hw
    obtain ⟨sh', at', presCol, presLow, hAgg⟩ := ih (i + 1) out1 out' hloop
    obtain ⟨hlen, hfa⟩ := gatherLenInv hs
    refine ⟨sh'.trans sh1, at'.trans at1, ?_, ?_, ?_⟩
    · intro nm hnm
      rw [presCol nm hnm, np1 nm hnm]
    · intro k hk
      rw [presLow k (by omega), pres1 k (by omega)]
    · intro k hk1 hk2
      by_cases hk : k = i
      · subst hk
        refine ⟨s, hs, hlen, hfa, ?_⟩
        rw [presLow k (by omega)]
        exact rq1
      · exact hAgg k (by omega) (by omega)

theorem setAttrListLookup : ∀ (a : List (String × List String)) (nm : String)
    (v : List String),
    ((setAttrList a nm v).find? fun x => x.1 = nm).map (·.2) = some v := by
  intro a
  induction a with
  | nil => intro nm v; rw [setAttrList]; simp [List.find?]
  | cons head rest ih =>
    obtain ⟨n, w⟩ := head
    intro nm v
    rw [setAttrList]
    by_cases hn : n = nm
    · rw [if_pos hn]
      rw [List.find?_cons_of_pos _ (by simp)]
      rfl
    · rw [if_neg hn]
      rw [List.find?_cons_of_neg _ (by simp [hn])]
      exact ih nm v

theorem setAttrListSame : ∀ (a : List (String × List String)) (nm : String)
    (v : List String),
    (a.find? fun x => x.1 = nm).map (·.2) = some v → setAttrList a nm v = a := by
  intro a
  induction a with
  | nil => intro nm v h; simp [List.find?] at h
  | cons head rest ih =>
    obtain ⟨n, w⟩ := head
    intro nm v h
    by_cases hn : n = nm
    · rw [List.find?_cons_of_pos _ (by simp [hn])] at h
      simp only [Option.map_some', Option.some.injEq] at h
      rw [setAttrList, if_pos hn, ← hn, h]
    · rw [List.find?_cons_of_neg _ (by simp [hn])] at h
      rw [setAttrList, if_neg hn, ih nm v h]

theorem attrLookupSetAttr (df : DataFrame) (nm : String) (v : List String) :
    attrLookup (setAttr df nm v) nm = some v := by
  rw [attrLookup, setAttr]
  exact setAttrListLookup df.attrs nm v

theorem setAttrSame {df : DataFrame} {nm : String} {v : List String}
    (h : attrLookup df nm = some v) : setAttr df nm v = df := by
  rw [setAttr, setAttrListSame df.attrs nm v h]

theorem nrowsOfShape {df df' : DataFrame} (hsh : colShape df' = colShape df) :
    nrows df' = nrows df := by
  rw [nrows, nrows]
  cases hc : df.cols with
  | nil =>
    rw [colShape, colShape, hc] at hsh
    simp only [List.map_nil, List.map_eq_nil_iff] at hsh
    rw [hsh]
  | cons c rest =>
    rw [colShape, colShape, hc] at hsh
    cases hc' : df'.cols with
    | nil => rw [hc'] at hsh; simp at hsh
    | cons c' rest' =>
      rw [hc'] at hsh
      simp only [List.map_cons, List.cons.injEq, Prod.mk.injEq] at hsh
      simp only [List.head?_cons, Option.map_some', Option.getD_some]
      exact hsh.1.2

theorem readQuatSetAttr (df : DataFrame) (nm : String) (v : List String) (i : ℕ) :
    readQuat (setAttr df nm v) i = readQuat df i := rfl

theorem meanGridLoopEq (l : List DataFrame) :
    ∀ (fuel i : ℕ) (out : DataFrame),
      meanGridLoop l i fuel out = genGridLoop gmean l i fuel out := by
  intro fuel
  induction fuel with
  | zero => intro i out; rfl
  | succ f ih =>
    intro i out
    rw [meanGridLoop, genGridLoop]
    simp only [ih]

theorem medianGridLoopEq (l : List DataFrame) :
    ∀ (fuel i : ℕ) (out : DataFrame),
      medianGridLoop l i fuel out = genGridLoop gmedian l i fuel out := by
  intro fuel
  induction fuel with
  | zero => intro i out; rfl
  | succ f ih =>
    intro i out
    rw [medianGridLoop, genGridLoop]
    simp only [ih]

theorem meanImplEqDriver (l : List DataFrame) :
    mean_qts_impl l = seriesDriver gmean l := by
  rw [mean_qts_impl, seriesDriver]
  simp only [meanGridLoopEq]

theorem medianImplEqDriver (l : List DataFrame) :
    median_qts_impl l = seriesDriver gmedian l := by
  rw [median_qts_impl, seriesDriver]
  simp only [medianGridLoopEq]

theorem seriesDriverFull (agg : List Quat4 → Quat4) {h0 : DataFrame}
    {t : List DataFrame} {G : ℕ}
    (hwf : ∀ df ∈ h0 :: t, wellFormedDF G df) :
    ∃ out, seriesDriver agg (h0 :: t) = some out ∧
      colShape out = colShape h0 ∧ nrows out = G ∧
      out.attrs = setAttrList h0.attrs classAttrName qtsClassTag ∧
      (∀ nm, nm ∉ quatColNames → colNamed out nm = colNamed h0 nm) ∧
      (∀ k, k < G → ∃ s, gatherSamples (h0 :: t) k = some s ∧
        List.Forall₂ (fun df q => readQuat df k = some q) (h0 :: t) s ∧
        readQuat out k = some (agg s)) := by
  have hq : ∀ df ∈ h0 :: t, hasQuatCols G df := fun df hdf => (hwf df hdf).2
  have hnr : nrows h0 = G := (hwf h0 (by simp)).1
  obtain ⟨out', hloop, _, sh, hattrs, _, presCol, hAgg⟩ :=
    genGridLoopFull agg hq G 0 h0 (by omega) (hq h0 (by simp))
  refine ⟨setAttr out' classAttrName qtsClassTag, ?_, sh, ?_, ?_, ?_, ?_⟩
  · rw [seriesDriver]
    simp only [List.map_cons, clone, List.getElem?_cons_zero,
      Option.bind_eq_bind, Option.some_bind, hnr, hloop, Option.pure_def]
  · rw [show nrows (setAttr out' classAttrName qtsClassTag) = nrows out' from rfl,
      nrowsOfShape sh, hnr]
  · rw [show (setAttr out' classAttrName qtsClassTag).attrs =
      setAttrList out'.attrs classAttrName qtsClassTag from rfl, hattrs]
  · intro nm hnm
    exact presCol nm hnm
  · intro k hk
    obtain ⟨s, hs, hf, hr⟩ := hAgg k (by omega) (by omega)
    exact ⟨s, hs, hf, by rw [readQuatSetAttr]; exact hr⟩

theorem seriesDriverInv (agg : List Quat4 → Quat4) {l : List DataFrame}
    {out : DataFrame} (h : seriesDriver agg l = some out) :
    ∃ h0 t, l = h0 :: t ∧ colShape out = colShape h0 ∧
      out.attrs = setAttrList h0.attrs classAttrName qtsClassTag ∧
      attrLookup out classAttrName = some qtsClassTag ∧
      (∀ nm, nm ∉ quatColNames → colNamed out nm = colNamed h0 nm) ∧
      (∀ k, k < nrows h0 → ∃ s, gatherSamples l k = some s ∧
        s.length = l.length ∧
        List.Forall₂ (fun df q => readQuat df k = some q) l s ∧
        readQuat out k = some (agg s)) := by
  cases l with
  | nil => rw [seriesDriver] at h; simp at h
  | cons h0 t =>
    rw [seriesDriver] at h
    simp only [List.map_cons, clone, List.getElem?_cons_zero,
      Option.bind_eq_bind, Option.some_bind, Option.pure_def,
      Option.bind_eq_some, Option.some.injEq] at h
    obtain ⟨out', hloop, hout⟩ := h
    subst hout
    obtain ⟨sh, hattrs, presCol, _, hAgg⟩ := genGridLoopInv agg (nrows h0) 0 h0 out' hloop
    refine ⟨h0, t, rfl, sh, ?_, ?_, presCol, ?_⟩
    · rw [show (setAttr out' classAttrName qtsClassTag).attrs =
        setAttrList out'.attrs classAttrName qtsClassTag from rfl, hattrs]
    · exact attrLookupSetAttr out' classAttrName qtsClassTag
    · intro k hk
      obtain ⟨s, hs, hlen, hf, hr⟩ := hAgg k (by omega) (by omega)
      exact ⟨s, hs, hlen, hf, by rw [readQuatSetAttr]; exact hr⟩

theorem writeQuatRefChar {st st' : Store} {r i : ℕ} {q : Quat4}
    (h : writeQuatRef st r i q = some st') :
    (∀ r', r' ≠ r → st'[r']? = st[r']?) ∧ st'.length = st.length := by
  rw [writeQuatRef] at h
  simp only [Option.bind_eq_bind, Option.bind_eq_some, Option.pure_def,
    Option.some.injEq] at h
  obtain ⟨df, hdf, df', hw, hst⟩ := h
  subst hst
  exact ⟨fun r' hr' => List.getElem?_set_ne (Ne.symm hr'), by simp⟩

theorem writeAttrRefChar {st st' : Store} {r : ℕ} {nm : String} {v : List String}
    (h : writeAttrRef st r nm v = some st') :
    (∀ r', r' ≠ r → st'[r']? = st[r']?) ∧ st'.length = st.length := by
  rw [writeAttrRef] at h
  simp only [Option.bind_eq_bind, Option.bind_eq_some, Option.pure_def,
    Option.some.injEq] at h
  obtain ⟨df, hdf, hst⟩ := h
  subst hst
  exact ⟨fun r' hr' => List.getElem?_set_ne (Ne.symm hr'), by simp⟩

theorem meanGridLoopHeapInv {refs : List ℕ} {outRef : ℕ} :
    ∀ (fuel i : ℕ) (st st' : Store),
      meanGridLoopHeap refs outRef i fuel st = some st' →
      (∀ r, r ≠ outRef → st'[r]? = st[r]?) ∧ st'.length = st.length := by
  intro fuel
  induction fuel with
  | zero =>
    intro i st st' h
    rw [meanGridLoopHeap] at h
    simp only [Option.some.injEq] at h
    subst h
    exact ⟨fun _ _ => rfl, rfl⟩
  | succ f ih =>
    intro i st st' h
    rw [meanGridLoopHeap] at h
    simp only [Option.bind_eq_bind, Option.bind_eq_some] at h
    obtain ⟨s, hs, st1, hw, hloop⟩ := h
    obtain ⟨p1, l1⟩ := writeQuatRefChar hw
    obtain ⟨p2, l2⟩ := ih (i + 1) st1 st' hloop
    exact ⟨fun r hr => (p2 r hr).trans (p1 r hr), l2.trans l1⟩

theorem medianGridLoopHeapInv {refs : List ℕ} {outRef : ℕ} :
    ∀ (fuel i : ℕ) (st st' : Store),
      medianGridLoopHeap refs outRef i fuel st = some st' →
      (∀ r, r ≠ outRef → st'[r]? = st[r]?) ∧ st'.length = st.length := by
  intro fuel
  induction fuel with
  | zero =>
    intro i st st' h
    rw [medianGridLoopHeap] at h
    simp only [Option.some.injEq] at h
    subst h
    exact ⟨fun _ _ => rfl, rfl⟩
  | succ f ih =>
    intro i st st' h
    rw [medianGridLoopHeap] at h
    simp only [Option.bind_eq_bind, Option.bind_eq_some] at h
    obtain ⟨s, hs, st1, hw, hloop⟩ := h
    obtain ⟨p1, l1⟩ := writeQuatRefChar hw
    obtain ⟨p2, l2⟩ := ih (i + 1) st1 st' hloop
    exact ⟨fun r hr => (p2 r hr).trans (p1 r hr), l2.trans l1⟩

theorem meanHeapPres {st : Store} {refs : List ℕ} {out : Store × ℕ}
    (h : mean_qts_impl_heap st refs = some out) :
    out.2 = st.length ∧ ∀ r, r < st.length → out.1[r]? = st[r]? := by
  rw [mean_qts_impl_heap] at h
  simp only [Option.bind_eq_bind, Option.bind_eq_some, Option.pure_def,
    Option.some.injEq] at h
  obtain ⟨r0, hr0, df, hdf, outValue, hov, st2, hloop, st3, hattr, hout⟩ := h
  subst hout
  obtain ⟨p1, _⟩ := meanGridLoopHeapInv (nrows outValue) 0 (st ++ [clone df]) st2 hloop
  obtain ⟨p2, _⟩ := writeAttrRefChar hattr
  refine ⟨rfl, fun r hr => ?_⟩
  have hne : r ≠ st.length := by omega
  rw [p2 r hne, p1 r hne, List.getElem?_append_left hr]

theorem medianHeapPres {st : Store} {refs : List ℕ} {out : Store × ℕ}
    (h : median_qts_impl_heap st refs = some out) :
    out.2 = st.length ∧ ∀ r, r < st.length → out.1[r]? = st[r]? := by
  rw [median_qts_impl_heap] at h
  simp only [Option.bind_eq_bind, Option.bind_eq_some, Option.pure_def,
    Option.some.injEq] at h
  obtain ⟨r0, hr0, df, hdf, outValue, hov, st2, hloop, st3, hattr, hout⟩ := h
  subst hout
  obtain ⟨p1, _⟩ := medianGridLoopHeapInv (nrows outValue) 0 (st ++ [clone df]) st2 hloop
  obtain ⟨p2, _⟩ := writeAttrRefChar hattr
  refine ⟨rfl, fun r hr => ?_⟩
  have hne : r ≠ st.length := by omega
  rw [p2 r hne, p1 r hne, List.getElem?_append_left hr]

theorem genGridLoopIdent (agg : List Quat4 → Quat4) {df : DataFrame} {G : ℕ}
    (hG : ∀ k, k < G → ∃ q, readQuat df k = some q ∧ agg [q] = q) :
    ∀ (fuel i : ℕ), i + fuel ≤ G → genGridLoop agg [df] i fuel df = some df := by
  intro fuel
  induction fuel with
  | zero => intro i _; rfl
  | succ f ih =>
    intro i h
    obtain ⟨q, hq, hagg⟩ := hG i (by omega)
    have hgather : gatherSamples [df] i = some [q] := by
      rw [gatherSamples, List.mapM_cons]
      simp [hq, List.mapM.loop]
    rw [genGridLoop]
    simp only [Option.bind_eq_bind, hgather, Option.some_bind, hagg,
      writeQuatSame hq, ih (i + 1) (by omega)]

theorem seriesDriverIdent (agg : List Quat4 → Quat4) {df : DataFrame} {G : ℕ}
    (hwf : wellFormedDF G df)
    (hclass : attrLookup df classAttrName = some qtsClassTag)
    (hG : ∀ k, k < G → ∃ q, readQuat df k = some q ∧ agg [q] = q) :
    seriesDriver agg [df] = some df := by
  rw [seriesDriver]
  simp only [List.map_cons, List.map_nil, clone, List.getElem?_cons_zero,
    Option.bind_eq_bind, Option.some_bind, Option.pure_def]
  rw [hwf.1, genGridLoopIdent agg hG G 0 (by omega)]
  simp only [Option.some_bind, Option.some.injEq]
  exact setAttrSame hclass

theorem exampleReadQ : readQuat exampleQTS 0 = some ⟨1, 0, 0, 0⟩ := by
  simp [readQuat, readElt, colNamed, colNamedColsCons, exampleQTS,
    wName, xName, yName, zName]

theorem negwReadQ : readQuat negwQTS 0 = some ⟨-1, 0, 0, 0⟩ := by
  simp [readQuat, readElt, colNamed, colNamedColsCons, negwQTS,
    wName, xName, yName, zName]

theorem canonQId : canonQ ⟨1, 0, 0, 0⟩ = ⟨1, 0, 0, 0⟩ := by
  norm_num [canonQ]

theorem canonQNegW : canonQ ⟨-1, 0, 0, 0⟩ = ⟨1, 0, 0, 0⟩ := by
  norm_num [canonQ]
  ext <;> simp

theorem dotIdQ : dotQ ⟨1, 0, 0, 0⟩ ⟨1, 0, 0, 0⟩ = 1 := by
  norm_num [dotQ]

theorem gmeanIdQ : gmean [(⟨1, 0, 0, 0⟩ : Quat4)] = ⟨1, 0, 0, 0⟩ :=
  gmeanSingle dotIdQ canonQId

theorem gmedianIdQ : gmedian [(⟨1, 0, 0, 0⟩ : Quat4)] = ⟨1, 0, 0, 0⟩ :=
  gmedianSingle dotIdQ canonQId

theorem gmeanNegwQ : gmean [(⟨-1, 0, 0, 0⟩ : Quat4)] = ⟨1, 0, 0, 0⟩ := by
  rw [gmean, List.map_cons, List.map_nil, canonQNegW]
  exact gmeanAuxSingle dotIdQ

theorem gmedianNegwQ : gmedian [(⟨-1, 0, 0, 0⟩ : Quat4)] = ⟨1, 0, 0, 0⟩ := by
  rw [gmedian, List.map_cons, List.map_nil, canonQNegW]
  exact gmedianAuxSingle dotIdQ

theorem exampleWF : wellFormedDF 1 exampleQTS := by
  constructor
  · simp [nrows, exampleQTS]
  · intro nm hnm
    simp only [quatColNames, List.mem_cons, List.not_mem_nil, or_false] at hnm
    rcases hnm with rfl | rfl | rfl | rfl
    · exact ⟨[1], by simp [exampleQTS, colNamed, colNamedColsCons,
        wName, xName, yName, zName], rfl⟩
    · exact ⟨[0], by simp [exampleQTS, colNamed, colNamedColsCons,
        wName, xName, yName, zName], rfl⟩
    · exact ⟨[0], by simp [exampleQTS, colNamed, colNamedColsCons,
        wName, xName, yName, zName], rfl⟩
    · exact ⟨[0], by simp [exampleQTS, colNamed, colNamedColsCons,
        wName, xName, yName, zName], rfl⟩

theorem negwWF : wellFormedDF 1 negwQTS := by
  constructor
  · simp [nrows, negwQTS]
  · intro nm hnm
    simp only [quatColNames, List.mem_cons, List.not_mem_nil, or_false] at hnm
    rcases hnm with rfl | rfl | rfl | rfl
    · exact ⟨[-1], by simp [negwQTS, colNamed, colNamedColsCons,
        wName, xName, yName, zName], rfl⟩
    · exact ⟨[0], by simp [negwQTS, colNamed, colNamedColsCons,
        wName, xName, yName, zName], rfl⟩
    · exact ⟨[0], by simp [negwQTS, colNamed, colNamedColsCons,
        wName, xName, yName, zName], rfl⟩
    · exact ⟨[0], by simp [negwQTS, colNamed, colNamedColsCons,
        wName, xName, yName, zName], rfl⟩

theorem exampleClass : attrLookup exampleQTS classAttrName = some qtsClassTag := by
  simp [attrLookup, exampleQTS]

theorem negwClass : attrLookup negwQTS classAttrName = some qtsClassTag := by
  simp [attrLookup, negwQTS]

theorem exampleMeanEval : mean_qts_impl [exampleQTS] = some exampleQTS := by
  rw [meanImplEqDriver]
  refine seriesDriverIdent gmean exampleWF exampleClass fun k hk => ?_
  have hk0 : k = 0 := by omega
  subst hk0
  exact ⟨⟨1, 0, 0, 0⟩, exampleReadQ, gmeanIdQ⟩

theorem exampleMedianEval : median_qts_impl [exampleQTS] = some exampleQTS := by
  rw [medianImplEqDriver]
  refine seriesDriverIdent gmedian exampleWF exampleClass fun k hk => ?_
  have hk0 : k = 0 := by omega
  subst hk0
  exact ⟨⟨1, 0, 0, 0⟩, exampleReadQ, gmedianIdQ⟩

theorem negwWriteEval : writeQuat negwQTS 0 ⟨1, 0, 0, 0⟩ = some exampleQTS := by
  simp [writeQuat, writeElt, setColsEntry, negwQTS, exampleQTS,
    wName, xName, yName, zName, List.set]

theorem negwMeanEval : mean_qts_impl [negwQTS] = some exampleQTS := by
  rw [meanImplEqDriver, seriesDriver]
  simp only [List.map_cons, List.map_nil, clone, List.getElem?_cons_zero,
    Option.bind_eq_bind, Option.some_bind, Option.pure_def]
  have hnr : nrows negwQTS = 1 := by simp [nrows, negwQTS]
  rw [hnr]
  have hgather : gatherSamples [negwQTS] 0 = some [⟨-1, 0, 0, 0⟩] := by
    rw [gatherSamples, List.mapM_cons]
    simp [negwReadQ, List.mapM.loop]
  have hloop : genGridLoop gmean [negwQTS] 0 1 negwQTS = some exampleQTS := by
    rw [show (1 : ℕ) = 0 + 1 from rfl, genGridLoop]
    simp only [Option.bind_eq_bind, hgather, Option.some_bind, gmeanNegwQ,
      negwWriteEval]
    rfl
  rw [hloop]
  simp only [Option.some_bind, Option.some.injEq]
  exact setAttrSame exampleClass

theorem negwMedianEval : median_qts_impl [negwQTS] = some exampleQTS := by
  rw [medianImplEqDriver, seriesDriver]
  simp only [List.map_cons, List.map_nil, clone, List.getElem?_cons_zero,
    Option.bind_eq_bind, Option.some_bind, Option.pure_def]
  have hnr : nrows negwQTS = 1 := by simp [nrows, negwQTS]
  rw [hnr]
  have hgather : gatherSamples [negwQTS] 0 = some [⟨-1, 0, 0, 0⟩] := by
    rw [gatherSamples, List.mapM_cons]
    simp [negwReadQ, List.mapM.loop]
  have hloop : genGridLoop gmedian [negwQTS] 0 1 negwQTS = some exampleQTS := by
    rw [show (1 : ℕ) = 0 + 1 from rfl, genGridLoop]
    simp only [Option.bind_eq_bind, hgather, Option.some_bind, gmedianNegwQ,
      negwWriteEval]
    rfl
  rw [hloop]
  simp only [Option.some_bind, Option.some.injEq]
  exact setAttrSame exampleClass

theorem exampleNeNegw : exampleQTS ≠ negwQTS := by
  intro h
  rw [exampleQTS, negwQTS] at h
  simp only [DataFrame.mk.injEq, List.cons.injEq, Prod.mk.injEq] at h
  have := h.1.1.2
  norm_num at this

theorem timeReadQ : readQuat exampleTimeQTS 0 = some ⟨1, 0, 0, 0⟩ := by
  simp [readQuat, readElt, colNamed, colNamedColsCons, exampleTimeQTS,
    timeName, wName, xName, yName, zName]

theorem timeWF : wellFormedDF 1 exampleTimeQTS := by
  constructor
  · simp [nrows, exampleTimeQTS]
  · intro nm hnm
    simp only [quatColNames, List.mem_cons, List.not_mem_nil, or_false] at hnm
    rcases hnm with rfl | rfl | rfl | rfl
    · exact ⟨[1], by simp [exampleTimeQTS, colNamed, colNamedColsCons,
        timeName, wName, xName, yName, zName], rfl⟩
    · exact ⟨[0], by simp [exampleTimeQTS, colNamed, colNamedColsCons,
        timeName, wName, xName, yName, zName], rfl⟩
    · exact ⟨[0], by simp [exampleTimeQTS, colNamed, colNamedColsCons,
        timeName, wName, xName, yName, zName], rfl⟩
    · exact ⟨[0], by simp [exampleTimeQTS, colNamed, colNamedColsCons,
        timeName, wName, xName, yName, zName], rfl⟩

theorem timeClass : attrLookup exampleTimeQTS classAttrName = some qtsClassTag := by
  simp [attrLookup, exampleTimeQTS]

theorem timeMeanEval : mean_qts_impl [exampleTimeQTS] = some exampleTimeQTS := by
  rw [meanImplEqDriver]
  refine seriesDriverIdent gmean timeWF timeClass fun k hk => ?_
  have hk0 : k = 0 := by omega
  subst hk0
  exact ⟨⟨1, 0, 0, 0⟩, timeReadQ, gmeanIdQ⟩

theorem timeMedianEval : median_qts_impl [exampleTimeQTS] = some exampleTimeQTS := by
  rw [medianImplEqDriver]
  refine seriesDriverIdent gmedian timeWF timeClass fun k hk => ?_
  have hk0 : k = 0 := by omega
  subst hk0
  exact ⟨⟨1, 0, 0, 0⟩, timeReadQ, gmedianIdQ⟩

theorem heapEvalMean :
    mean_qts_impl_heap [exampleQTS] [0] = some ([exampleQTS, exampleQTS], 1) := by
  have hloop : meanGridLoopHeap [0] 1 0 1 [exampleQTS, exampleQTS] =
      some [exampleQTS, exampleQTS] := by
    have hg : gatherHeap [0] [exampleQTS, exampleQTS] 0 = some [⟨1, 0, 0, 0⟩] := by
      rw [gatherHeap, List.mapM_cons]
      simp [exampleReadQ, List.mapM.loop]
    show meanGridLoopHeap [0] 1 0 (0 + 1) [exampleQTS, exampleQTS] =
      some [exampleQTS, exampleQTS]
    rw [meanGridLoopHeap]
    simp only [Option.bind_eq_bind, hg, Option.some_bind, gmeanIdQ]
    have hwr : writeQuatRef [exampleQTS, exampleQTS] 1 0 ⟨1, 0, 0, 0⟩ =
        some [exampleQTS, exampleQTS] := by
      rw [writeQuatRef]
      simp [writeQuatSame exampleReadQ, List.set]
    simp only [hwr, Option.some_bind]
    rfl
  rw [mean_qts_impl_heap]
  have hattr : writeAttrRef [exampleQTS, exampleQTS] 1 classAttrName qtsClassTag =
      some [exampleQTS, exampleQTS] := by
    rw [writeAttrRef]
    simp [setAttrSame exampleClass, List.set]
  simp only [List.getElem?_cons_zero, Option.bind_eq_bind, Option.some_bind,
    clone, List.cons_append, List.nil_append, List.length_cons, List.length_nil,
    List.getElem?_cons_succ, Option.pure_def]
  simp only [show nrows exampleQTS = 1 from by simp [nrows, exampleQTS],
    show (0 + 1 : ℕ) = 1 from rfl, hloop, Option.some_bind, hattr]

theorem heapEvalMedian :
    median_qts_impl_heap [exampleQTS] [0] = some ([exampleQTS, exampleQTS], 1) := by
  have hloop : medianGridLoopHeap [0] 1 0 1 [exampleQTS, exampleQTS] =
      some [exampleQTS, exampleQTS] := by
    have hg : gatherHeap [0] [exampleQTS, exampleQTS] 0 = some [⟨1, 0, 0, 0⟩] := by
      rw [gatherHeap, List.mapM_cons]
      simp [exampleReadQ, List.mapM.loop]
    show medianGridLoopHeap [0] 1 0 (0 + 1) [exampleQTS, exampleQTS] =
      some [exampleQTS, exampleQTS]
    rw [medianGridLoopHeap]
    simp only [Option.bind_eq_bind, hg, Option.some_bind, gmedianIdQ]
    have hwr : writeQuatRef [exampleQTS, exampleQTS] 1 0 ⟨1, 0, 0, 0⟩ =
        some [exampleQTS, exampleQTS] := by
      rw [writeQuatRef]
      simp [writeQuatSame exampleReadQ, List.set]
    simp only [hwr, Option.some_bind]
    rfl
  rw [median_qts_impl_heap]
  have hattr : writeAttrRef [exampleQTS, exampleQTS] 1 classAttrName qtsClassTag =
      some [exampleQTS, exampleQTS] := by
    rw [writeAttrRef]
    simp [setAttrSame exampleClass, List.set]
  simp only [List.getElem?_cons_zero, Option.bind_eq_bind, Option.some_bind,
    clone, List.cons_append, List.nil_append, List.length_cons, List.length_nil,
    List.getElem?_cons_succ, Option.pure_def]
  simp only [show nrows exampleQTS = 1 from by simp [nrows, exampleQTS],
    show (0 + 1 : ℕ) = 1 from rfl, hloop, Option.some_bind, hattr]

/-- C1: for every non-empty list of well-formed input QTS of grid size `G`,
`mean_qts_impl` constructs the output as a structural copy of the first input
and, for every grid index `i < G`, gathers the `i`-th quaternion from each of
the `N` inputs into a sample set of size `N`, calls `gmean` on that set, and
writes the resulting quaternion's components into the output's `i`-th grid
point. -/
theorem thmC1 {h0 : DataFrame} {t : List DataFrame} {G : ℕ}
    (hwf : ∀ df ∈ h0 :: t, wellFormedDF G df) :
    ∃ out, mean_qts_impl (h0 :: t) = some out ∧
      colShape out = colShape h0 ∧
      ∀ i, i < G → ∃ s, gatherSamples (h0 :: t) i = some s ∧
        s.length = (h0 :: t).length ∧
        List.Forall₂ (fun df q => readQuat df i = some q) (h0 :: t) s ∧
        readQuat out i = some (gmean s) := by
  obtain ⟨out, hd, hsh, _, _, _, hAgg⟩ := seriesDriverFull gmean hwf
  refine ⟨out, by rw [meanImplEqDriver]; exact hd, hsh, fun i hi => ?_⟩
  obtain ⟨s, hs, hf, hr⟩ := hAgg i hi
  exact ⟨s, hs, (List.Forall₂.length_eq hf).symm, hf, hr⟩

/-- Witness for C1: the hypotheses hold at the concrete singleton input
`[exampleQTS]` of grid size one. -/
theorem thmC1Witness :
    (∀ df ∈ [exampleQTS], wellFormedDF 1 df) ∧
    (∃ out, mean_qts_impl [exampleQTS] = some out ∧
      colShape out = colShape exampleQTS ∧
      ∀ i, i < 1 → ∃ s, gatherSamples [exampleQTS] i = some s ∧
        s.length = ([exampleQTS] : List DataFrame).length ∧
        List.Forall₂ (fun df q => readQuat df i = some q) [exampleQTS] s ∧
        readQuat out i = some (gmean s)) := by
  have hwf : ∀ df ∈ [exampleQTS], wellFormedDF 1 df := by
    intro df hdf
    simp only [List.mem_singleton] at hdf
    subst hdf
    exact exampleWF
  exact ⟨hwf, thmC1 hwf⟩

/-- C2: for every non-empty list of well-formed input QTS of grid size `G`
whose first element is tagged as a QTS, both drivers succeed and return a
frame of grid size `G` with the same column shape and the same attribute list
as the first input. -/
theorem thmC2 {h0 : DataFrame} {t : List DataFrame} {G : ℕ}
    (hwf : ∀ df ∈ h0 :: t, wellFormedDF G df)
    (hcl : attrLookup h0 classAttrName = some qtsClassTag) :
    ∃ outM outD, mean_qts_impl (h0 :: t) = some outM ∧
      median_qts_impl (h0 :: t) = some outD ∧
      nrows outM = G ∧ nrows outD = G ∧
      colShape outM = colShape h0 ∧ colShape outD = colShape h0 ∧
      outM.attrs = h0.attrs ∧ outD.attrs = h0.attrs := by
  obtain ⟨oM, hdM, hshM, hnrM, haM, _, _⟩ := seriesDriverFull gmean hwf
  obtain ⟨oD, hdD, hshD, hnrD, haD, _, _⟩ := seriesDriverFull gmedian hwf
  have hsame : setAttrList h0.attrs classAttrName qtsClassTag = h0.attrs :=
    setAttrListSame h0.attrs classAttrName qtsClassTag hcl
  exact ⟨oM, oD, by rw [meanImplEqDriver]; exact hdM,
    by rw [medianImplEqDriver]; exact hdD, hnrM, hnrD, hshM, hshD,
    by rw [haM, hsame], by rw [haD, hsame]⟩

/-- Witness for C2: the hypotheses hold at the concrete singleton input
`[exampleQTS]` of grid size one. -/
theorem thmC2Witness :
    (∀ df ∈ [exampleQTS], wellFormedDF 1 df) ∧
    attrLookup exampleQTS classAttrName = some qtsClassTag ∧
    (∃ outM outD, mean_qts_impl [exampleQTS] = some outM ∧
      median_qts_impl [exampleQTS] = some outD ∧
      nrows outM = 1 ∧ nrows outD = 1 ∧
      colShape outM = colShape exampleQTS ∧ colShape outD = colShape exampleQTS ∧
      outM.attrs = exampleQTS.attrs ∧ outD.attrs = exampleQTS.attrs) := by
  have hwf : ∀ df ∈ [exampleQTS], wellFormedDF 1 df := by
    intro df hdf
    simp only [List.mem_singleton] at hdf
    subst hdf
    exact exampleWF
  exact ⟨hwf, exampleClass, thmC2 hwf exampleClass⟩

/-- C3: `gmean` and `gmedian` depend only on the multiset of rotations
represented — permuting the sample sequence does not change the result, and
replacing any subset of samples by their antipodal representatives does not
change the result. -/
theorem thmC3 (s₁ s₂ s₃ : List Quat4) (hperm : s₁.Perm s₂)
    (hsign : List.Forall₂ (fun p q => q = p ∨ q = -p) s₁ s₃) :
    gmean s₁ = gmean s₂ ∧ gmedian s₁ = gmedian s₂ ∧
    gmean s₁ = gmean s₃ ∧ gmedian s₁ = gmedian s₃ := by
  have hm := mapCanonSign hsign
  exact ⟨by rw [gmean, gmean]; exact gmeanAuxPerm (hperm.map canonQ),
    by rw [gmedian, gmedian]; exact gmedianAuxPerm (hperm.map canonQ),
    by rw [gmean, gmean, hm],
    by rw [gmedian, gmedian, hm]⟩

/-- Witness for C3: a transposition and a sign flip of a concrete two-sample
set leave both aggregators unchanged. -/
theorem thmC3Witness :
    gmean [(⟨1, 0, 0, 0⟩ : Quat4), ⟨0, 1, 0, 0⟩] =
      gmean [⟨0, 1, 0, 0⟩, ⟨1, 0, 0, 0⟩] ∧
    gmedian [(⟨1, 0, 0, 0⟩ : Quat4), ⟨0, 1, 0, 0⟩] =
      gmedian [⟨0, 1, 0, 0⟩, ⟨1, 0, 0, 0⟩] ∧
    gmean [(⟨1, 0, 0, 0⟩ : Quat4), ⟨0, 1, 0, 0⟩] =
      gmean [-⟨1, 0, 0, 0⟩, ⟨0, 1, 0, 0⟩] ∧
    gmedian [(⟨1, 0, 0, 0⟩ : Quat4), ⟨0, 1, 0, 0⟩] =
      gmedian [-⟨1, 0, 0, 0⟩, ⟨0, 1, 0, 0⟩] :=
  thmC3 _ _ _ (List.Perm.swap _ _ _)
    (List.Forall₂.cons (Or.inr rfl) (List.Forall₂.cons (Or.inl rfl)
      List.Forall₂.nil))

/-- C4: the two drivers are the same procedure up to the aggregator they
invoke — each equals the generic spec-level series driver applied to its
aggregator. -/
theorem thmC4 : (∀ l, mean_qts_impl l = seriesDriver gmean l) ∧
    (∀ l, median_qts_impl l = seriesDriver gmedian l) :=
  ⟨meanImplEqDriver, medianImplEqDriver⟩

/-- C5: in the heap model, a successful run of either driver leaves every
pre-existing heap cell (in particular every input series) exactly as it was,
and the returned output reference is the freshly allocated clone. -/
theorem thmC5 (st : Store) (refs : List ℕ) (outM outD : Store × ℕ)
    (hM : mean_qts_impl_heap st refs = some outM)
    (hD : median_qts_impl_heap st refs = some outD) :
    outM.2 = st.length ∧ (∀ r, r < st.length → outM.1[r]? = st[r]?) ∧
    outD.2 = st.length ∧ (∀ r, r < st.length → outD.1[r]? = st[r]?) := by
  obtain ⟨h1, h2⟩ := meanHeapPres hM
  obtain ⟨h3, h4⟩ := medianHeapPres hD
  exact ⟨h1, h2, h3, h4⟩

/-- Witness for C5: both heap drivers succeed on a one-frame heap and leave
the input frame untouched. -/
theorem thmC5Witness :
    mean_qts_impl_heap [exampleQTS] [0] = some ([exampleQTS, exampleQTS], 1) ∧
    median_qts_impl_heap [exampleQTS] [0] = some ([exampleQTS, exampleQTS], 1) ∧
    ([exampleQTS, exampleQTS] : Store)[0]? = ([exampleQTS] : Store)[0]? := by
  refine ⟨heapEvalMean, heapEvalMedian, ?_⟩
  exact (thmC5 [exampleQTS] [0] ([exampleQTS, exampleQTS], 1)
    ([exampleQTS, exampleQTS], 1) heapEvalMean heapEvalMedian).2.1 0 (by simp)

/-- C6: every successful output of either driver carries the class attribute
`("qts", "tbl_df", "tbl", "data.frame")`, so downstream consumers recognize
it as a QTS-typed table. -/
theorem thmC6 (l : List DataFrame) (outM outD : DataFrame)
    (hM : mean_qts_impl l = some outM) (hD : median_qts_impl l = some outD) :
    attrLookup outM classAttrName = some qtsClassTag ∧
    attrLookup outD classAttrName = some qtsClassTag := by
  rw [meanImplEqDriver] at hM
  rw [medianImplEqDriver] at hD
  obtain ⟨_, _, _, _, _, hclM, _, _⟩ := seriesDriverInv gmean hM
  obtain ⟨_, _, _, _, _, hclD, _, _⟩ := seriesDriverInv gmedian hD
  exact ⟨hclM, hclD⟩

/-- Witness for C6: the drivers succeed on `[exampleQTS]` and the output's
class attribute is the QTS tag. -/
theorem thmC6Witness :
    mean_qts_impl [exampleQTS] = some exampleQTS ∧
    median_qts_impl [exampleQTS] = some exampleQTS ∧
    attrLookup exampleQTS classAttrName = some qtsClassTag := by
  refine ⟨exampleMeanEval, exampleMedianEval, ?_⟩
  exact (thmC6 [exampleQTS] exampleQTS exampleQTS exampleMeanEval
    exampleMedianEval).1

/-- C7: on an empty input list both drivers fail fast — the out-of-bounds
element access of `Rcpp::clone(qts_list)[0]` errors before any aggregation —
in the pure model and in the heap model alike. -/
theorem thmC7 : mean_qts_impl [] = none ∧ median_qts_impl [] = none ∧
    (∀ st : Store, mean_qts_impl_heap st [] = none) ∧
    (∀ st : Store, median_qts_impl_heap st [] = none) :=
  ⟨rfl, rfl, fun _ => rfl, fun _ => rfl⟩

/-- C8: both aggregators terminate on every finite sample set: the iteration
performs at most `maxIterations` correction steps, the result is the estimate
reached after exactly that many steps, and when the iteration stopped before
the cap the correction step at the returned estimate is below the
tolerance. -/
theorem thmC8 (ss : List Quat4) :
    gmeanIters ss ≤ maxIterations ∧
    gmean ss = (meanStep (ss.map canonQ))^[gmeanIters ss]
      (chordalInit (ss.map canonQ)) ∧
    (gmeanIters ss < maxIterations →
      normQ (avgTangent (gmean ss) (ss.map canonQ)) < meanTol) ∧
    gmedianIters ss ≤ maxIterations ∧
    gmedian ss = (medianStep (ss.map canonQ))^[gmedianIters ss]
      (gmeanAux (ss.map canonQ)) ∧
    (gmedianIters ss < maxIterations →
      normQ (wAvgTangent (gmedian ss) (ss.map canonQ)) < meanTol) := by
  obtain ⟨m1, m2, m3⟩ :=
    meanLoopSpec (ss.map canonQ) maxIterations (chordalInit (ss.map canonQ))
  obtain ⟨d1, d2, d3⟩ :=
    medianLoopSpec (ss.map canonQ) maxIterations (gmeanAux (ss.map canonQ))
  exact ⟨m1, m2, m3, d1, d2, d3⟩

/-- C9 (amended): for a QTS whose quaternions are unit and already in
canonical sign, both drivers applied to the singleton list return the series
unchanged; in general the single-sample aggregation returns the canonical
sign representative of each sample rather than the sample itself. -/
theorem thmC9 {df : DataFrame} {G : ℕ} (hwf : wellFormedDF G df)
    (hcl : attrLookup df classAttrName = some qtsClassTag)
    (hcanon : ∀ k, k < G →
      ∃ q, readQuat df k = some q ∧ dotQ q q = 1 ∧ canonQ q = q) :
    mean_qts_impl [df] = some df ∧ median_qts_impl [df] = some df := by
  constructor
  · rw [meanImplEqDriver]
    refine seriesDriverIdent gmean hwf hcl fun k hk => ?_
    obtain ⟨q, hq, h1, h2⟩ := hcanon k hk
    exact ⟨q, hq, gmeanSingle h1 h2⟩
  · rw [medianImplEqDriver]
    refine seriesDriverIdent gmedian hwf hcl fun k hk => ?_
    obtain ⟨q, hq, h1, h2⟩ := hcanon k hk
    exact ⟨q, hq, gmedianSingle h1 h2⟩

/-- Counterexample for C9 as stated: the singleton QTS holding the unit
quaternion `(-1, 0, 0, 0)` is not returned unchanged — the drivers return
its canonical sign representative `(1, 0, 0, 0)` instead. -/
theorem thmC9Cex :
    mean_qts_impl [negwQTS] ≠ some negwQTS ∧
    median_qts_impl [negwQTS] ≠ some negwQTS := by
  constructor
  · rw [negwMeanEval]
    intro h
    exact exampleNeNegw (Option.some.inj h)
  · rw [negwMedianEval]
    intro h
    exact exampleNeNegw (Option.some.inj h)

/-- Witness for C9: the hypotheses hold at the canonical-sign singleton
`exampleQTS`, and both drivers return it unchanged. -/
theorem thmC9Witness :
    wellFormedDF 1 exampleQTS ∧
    attrLookup exampleQTS classAttrName = some qtsClassTag ∧
    mean_qts_impl [exampleQTS] = some exampleQTS ∧
    median_qts_impl [exampleQTS] = some exampleQTS := by
  have hcanon : ∀ k, k < 1 → ∃ q, readQuat exampleQTS k = some q ∧
      dotQ q q = 1 ∧ canonQ q = q := by
    intro k hk
    have hk0 : k = 0 := by omega
    subst hk0
    exact ⟨⟨1, 0, 0, 0⟩, exampleReadQ, dotIdQ, canonQId⟩
  obtain ⟨h1, h2⟩ := thmC9 exampleWF exampleClass hcanon
  exact ⟨exampleWF, exampleClass, h1, h2⟩

/-- C10: a successful run of either driver leaves every column other than the
four quaternion component columns exactly as cloned from the first input
series. -/
theorem thmC10 {h0 : DataFrame} {t : List DataFrame} {outM outD : DataFrame}
    (hM : mean_qts_impl (h0 :: t) = some outM)
    (hD : median_qts_impl (h0 :: t) = some outD) :
    (∀ nm, nm ∉ quatColNames → colNamed outM nm = colNamed h0 nm) ∧
    (∀ nm, nm ∉ quatColNames → colNamed outD nm = colNamed h0 nm) := by
  rw [meanImplEqDriver] at hM
  rw [medianImplEqDriver] at hD
  obtain ⟨h0', t', heq, _, _, _, hpresM, _⟩ := seriesDriverInv gmean hM
  injection heq with e1 e2
  subst e1
  obtain ⟨h0'', t'', heq', _, _, _, hpresD, _⟩ := seriesDriverInv gmedian hD
  injection heq' with e3 e4
  subst e3
  exact ⟨hpresM, hpresD⟩

/-- Witness for C10: the drivers succeed on a singleton QTS carrying a time
column, and the time column of the output equals the cloned one. -/
theorem thmC10Witness :
    mean_qts_impl [exampleTimeQTS] = some exampleTimeQTS ∧
    median_qts_impl [exampleTimeQTS] = some exampleTimeQTS ∧
    colNamed exampleTimeQTS timeName = colNamed exampleTimeQTS timeName := by
  refine ⟨timeMeanEval, timeMedianEval, ?_⟩
  exact (thmC10 timeMeanEval timeMedianEval).1 timeName
    (by simp [quatColNames, timeName, wName, xName, yName, zName])

end
